import Mathlib

/-!
Verification of the on-demand resource lifecycle manager of `src/lazy_loader.py`
(class `DracoLazyLoader`).

Shallow embedding notes.

* Every public method of `DracoLazyLoader` runs entirely inside `with self.lock`
  (a single re-entrant lock over the whole manager), so each completed operation
  is atomic with respect to the others.  The sequential model below therefore
  represents each method as a pure state transformer on the manager state; a
  separate interleaving model (`namespace Conc` further down) makes the lock
  explicit for the two concurrency claims.
* Python callables stored in a descriptor may be stateful closures (the counter loader of the spec).  A loader is modelled as a pure function of its own call
  index: `loader k` is the outcome of the `k`-th invocation (0-based).  The
  descriptor carries ghost instrumentation counters `loaderCalls` and
  `unloaderCalls` recording how many times each callback was invoked; the code
  itself stores only the seven dictionary keys of `register_component`.
* `time.time()` values are modelled as integers (`Int`), passed explicitly as a
  `now` argument wherever the source reads the clock.  Subtraction therefore
  matches the real subtraction of Python (no truncation).
* Exceptions are modelled with `Except`: a loader/unloader either returns
  `.ok v` or raises `.error e`.  the possible outcomes of `get_component` are the
  four constructors of `GetResult` (KeyError, the 30-second TimeoutError, a
  re-raised loader exception, or a normal return of `comp["instance"]`, which
  is an `Option` because the dictionary slot may be `None`).
* `threading.Timer` objects in `self.unload_timers` are modelled as records of
  their schedule time and delay plus a `canceled` flag; `.cancel()` sets the
  flag, dictionary replacement/clearing is list replacement/clearing.  The
  firing of a timer is modelled by applying `_unload_if_idle` at the fire time.
-/

namespace Draco

/-- Embeds `class LoadState(Enum)` of `lazy_loader.py` (lines 19-24). -/
inductive LoadState where
  | not_loaded
  | loading
  | loaded
  | unloading
  | error
deriving DecidableEq, Repr

/-- One component descriptor: the dictionary built by `register_component`
(lines 42-50), plus the two ghost call counters described in the header. -/
structure Comp (α ε : Type) where
  loader : Nat → Except ε α
  unloader : Option (Option α → Except ε Unit)
  state : LoadState
  inst : Option α
  memory_mb : Int
  last_used : Int
  access_count : Nat
  loaderCalls : Nat
  unloaderCalls : Nat

/-- A `threading.Timer` entry of `self.unload_timers`: created by
`schedule_unload` with delay `timeout` at time `schedTime`; `.cancel()` sets
`canceled`. -/
structure Timer where
  schedTime : Int
  timeout : Int
  canceled : Bool
deriving DecidableEq, Repr

/-- The manager state of `DracoLazyLoader.__init__` (lines 30-35): the two
dictionaries (as association lists) and `default_timeout = 60`.  The lock is
implicit: every operation below is one atomic critical section. -/
structure Mgr (α ε : Type) where
  components : List (String × Comp α ε)
  unload_timers : List (String × Timer)
  default_timeout : Int

/-- Embeds `DracoLazyLoader()`: empty dictionaries, default timeout 60 s. -/
def Mgr.init (α ε : Type) : Mgr α ε :=
  { components := [], unload_timers := [], default_timeout := 60 }

/-- Association-list lookup (Python `d[k]` / `k in d`). -/
def alookup {β : Type} : List (String × β) → String → Option β
  | [], _ => none
  | (k, v) :: t, key => if k = key then some v else alookup t key

/-- Association-list store (Python `d[k] = v`): replaces in place, appends if
absent. -/
def astore {β : Type} : List (String × β) → String → β → List (String × β)
  | [], key, v => [(key, v)]
  | (k, w) :: t, key, v =>
      if k = key then (key, v) :: t else (k, w) :: astore t key v

/-- Embeds `self.unload_timers[name].cancel()` guarded by `if name in
self.unload_timers` (get_component lines 61-62, schedule_unload lines 98-99):
sets the `canceled` flag of the entry, if present. -/
def cancelTimer (timers : List (String × Timer)) (name : String) :
    List (String × Timer) :=
  match alookup timers name with
  | none => timers
  | some t => astore timers name { t with canceled := true }

/-- Outcome of `get_component`: `KeyError` for an unregistered name,
`TimeoutError` from the 30-second wait loop, a re-raised loader exception, or
a normal return of `comp["instance"]`. -/
inductive GetResult (α ε : Type) where
  | keyError
  | timeoutError
  | raised (e : ε)
  | ok (v : Option α)
deriving DecidableEq, Repr

namespace DracoLazyLoader

variable {α ε : Type}

/-- Embeds `register_component` (lines 37-50): installs/overwrites the descriptor in
state `NOT_LOADED` with `instance = None`, `last_used = 0`, `access_count = 0`.
The Python defaults are `unloader_func = None`, `estimated_memory_mb = 100`. -/
def register_component (m : Mgr α ε) (name : String)
    (loader_func : Nat → Except ε α)
    (unloader_func : Option (Option α → Except ε Unit))
    (estimated_memory_mb : Int) : Mgr α ε :=
  { m with components := astore m.components name {
        loader := loader_func
        unloader := unloader_func
        state := .not_loaded
        inst := none
        memory_mb := estimated_memory_mb
        last_used := 0
        access_count := 0
        loaderCalls := 0
        unloaderCalls := 0 } }

/-- Embeds `get_component` (lines 52-90), one atomic critical section.

* unregistered name: `raise KeyError` (line 56);
* the pending timer for `name`, if any, is cancelled (lines 61-62);
* state `LOADING` on entry: with no other thread able to mutate the state
  (the caller holds the manager lock), the polling loop of lines 67-70 spins
  until the 30-second budget is exhausted and raises `TimeoutError`; the state
  is left as it was;
* `force_reload` or state `NOT_LOADED`/`ERROR` (line 73): the loader is
  invoked (the transient `LOADING` of line 74 is never visible after the
  operation completes).  On success the instance is stored, the state becomes
  `LOADED`, `last_used`/`access_count` are updated and the fresh instance is
  returned (lines 76-82).  On an exception the state becomes `ERROR` and the
  exception is re-raised (lines 83-86); note that `comp["instance"]` is NOT
  cleared on this path;
* otherwise (state `LOADED`): `last_used`/`access_count` are updated and the
  cached `comp["instance"]` is returned (lines 88-90). -/
def get_component (m : Mgr α ε) (name : String) (force_reload : Bool)
    (now : Int) : GetResult α ε × Mgr α ε :=
  match alookup m.components name with
  | none => (.keyError, m)
  | some comp =>
    let timers := cancelTimer m.unload_timers name
    if comp.state = .loading then
      (.timeoutError, { m with unload_timers := timers })
    else if force_reload || comp.state = .not_loaded || comp.state = .error then
      match comp.loader comp.loaderCalls with
      | .ok v =>
          (.ok (some v),
            { m with
              unload_timers := timers
              components := astore m.components name
                { comp with
                  state := .loaded
                  inst := some v
                  last_used := now
                  access_count := comp.access_count + 1
                  loaderCalls := comp.loaderCalls + 1 } })
      | .error e =>
          (.raised e,
            { m with
              unload_timers := timers
              components := astore m.components name
                { comp with
                  state := .error
                  loaderCalls := comp.loaderCalls + 1 } })
    else
      (.ok comp.inst,
        { m with
          unload_timers := timers
          components := astore m.components name
            { comp with
              last_used := now
              access_count := comp.access_count + 1 } })

/-- Embeds `unload_component` (lines 117-129).  The guard of line 121 requires the
descriptor to exist, to be `LOADED` AND to carry a (truthy) unloader; only
then is the unloader invoked.  Clearing the instance and the transition to
`NOT_LOADED` sit INSIDE the `try`, after the unloader call, so an unloader
exception (caught on line 128) leaves both untouched. -/
def unload_component (m : Mgr α ε) (name : String) : Mgr α ε :=
  match alookup m.components name with
  | none => m
  | some comp =>
    match comp.unloader with
    | none => m
    | some u =>
      if comp.state = .loaded then
        match u comp.inst with
        | .ok _ =>
            { m with components := astore m.components name {
                  comp with
                  inst := none
                  state := .not_loaded
                  unloaderCalls := comp.unloaderCalls + 1 } }
        | .error _ =>
            { m with components := astore m.components name {
                  comp with unloaderCalls := comp.unloaderCalls + 1 } }
      else m

/-- Embeds `schedule_unload` (lines 92-104): resolves the default timeout, cancels
any pending timer for `name`, then stores and starts a fresh (not cancelled)
timer.  It consults `self.components` nowhere and cannot fail. -/
def schedule_unload (m : Mgr α ε) (name : String) (timeout : Option Int)
    (now : Int) : Mgr α ε :=
  let t := timeout.getD m.default_timeout
  { m with unload_timers :=
      astore (cancelTimer m.unload_timers name) name {
        schedTime := now, timeout := t, canceled := false } }

/-- Embeds `_unload_if_idle` (lines 106-115), the body a fired timer runs at time
`now`: returns immediately for an unregistered name; otherwise evicts via
`unload_component` exactly when `now - last_used ≥ timeout` and the state is
still `LOADED`. -/
def «_unload_if_idle» (m : Mgr α ε) (name : String) (timeout : Int)
    (now : Int) : Mgr α ε :=
  match alookup m.components name with
  | none => m
  | some comp =>
    if timeout ≤ now - comp.last_used ∧ comp.state = .loaded then
      unload_component m name
    else m

/-- Embeds `unload_all` (lines 131-138): `unload_component` on every registered name
(in dictionary order), then every timer is cancelled and the timer dictionary
cleared (cancel-then-clear leaves the empty dictionary). -/
def unload_all (m : Mgr α ε) : Mgr α ε :=
  let m2 := (m.components.map Prod.fst).foldl unload_component m
  { m2 with unload_timers := [] }

end DracoLazyLoader

open DracoLazyLoader

/-- One completed operation on the manager (each method of `DracoLazyLoader`
runs inside `with self.lock`, hence is atomic): registration, an `acquire`
(`get_component`), a `schedule_unload`, the firing of a scheduled eviction
check (`_unload_if_idle` at the fire time), an explicit eviction
(`unload_component`), or `unload_all`. -/
inductive Op (α ε : Type) where
  | register (name : String) (loader : Nat → Except ε α)
      (unloader : Option (Option α → Except ε Unit)) (mem : Int)
  | get (name : String) (force : Bool) (now : Int)
  | schedule (name : String) (timeout : Option Int) (now : Int)
  | fire (name : String) (timeout : Int) (now : Int)
  | evict (name : String)
  | evictAll

/-- Apply one operation to the manager state. -/
def applyOp {α ε : Type} (m : Mgr α ε) : Op α ε → Mgr α ε
  | .register n l u mem => register_component m n l u mem
  | .get n f now => (get_component m n f now).2
  | .schedule n t now => schedule_unload m n t now
  | .fire n t now => «_unload_if_idle» m n t now
  | .evict n => unload_component m n
  | .evictAll => unload_all m

/-- The manager state after a sequence of completed operations, starting from
`DracoLazyLoader()`. -/
def run {α ε : Type} (ops : List (Op α ε)) : Mgr α ε :=
  ops.foldl applyOp (Mgr.init α ε)

/-- The effect of `unload_component` (lines 117-129) on the descriptor of the
evicted name itself: a no-op unless the descriptor is `LOADED` and carries an
unloader; the state transition and the instance clearing happen only when the
unloader returns normally; an unloader exception leaves both untouched. -/
def evictEntry {α ε : Type} (c : Comp α ε) : Comp α ε :=
  match c.unloader with
  | none => c
  | some u =>
    if c.state = .loaded then
      match u c.inst with
      | .ok _ => { c with
          inst := none
          state := .not_loaded
          unloaderCalls := c.unloaderCalls + 1 }
      | .error _ => { c with unloaderCalls := c.unloaderCalls + 1 }
    else c

/-! ## Concrete scenarios used by counterexamples and witnesses -/

/-- The counter loader of the spec: call `k` (0-based) returns `k + 1`. -/
def counterLoader : Nat → Except Unit Nat := fun k => .ok (k + 1)

/-- A loader succeeding (with 1) on its first call and raising afterwards. -/
def okThenFailLoader : Nat → Except Unit Nat :=
  fun k => if k = 0 then .ok 1 else .error ()

/-- A loader raising on its first call and succeeding (with 7) afterwards. -/
def failThenOkLoader : Nat → Except Unit Nat :=
  fun k => if k = 0 then .error () else .ok 7

/-- An unloader that always raises. -/
def raisingUnloader : Option Nat → Except Unit Unit := fun _ => .error ()

/-- An unloader that always returns normally. -/
def okUnloader : Option Nat → Except Unit Unit := fun _ => .ok ()

/-- Amended per-descriptor instance/state invariant (see the C3 theorems). -/
def InstStateInv {α ε : Type} (c : Comp α ε) : Prop :=
  (c.state = .loaded → c.inst.isSome = true) ∧
  (c.state = .not_loaded → c.inst = none)

/-- C3 counterexample scenario: register, acquire (loads 1), then a forced
reload whose loader raises. -/
def c3Ops : List (Op Nat Unit) :=
  [.register "model" okThenFailLoader none 100,
   .get "model" false 0,
   .get "model" true 1]

/-- The descriptor of `"model"` after `c3Ops`: state `ERROR` with the stale
instance still present. -/
def c3Comp : Comp Nat Unit :=
  { loader := okThenFailLoader, unloader := none, state := .error,
    inst := some 1, memory_mb := 100, last_used := 0, access_count := 1,
    loaderCalls := 2, unloaderCalls := 0 }

/-- C3 witness scenario: register then acquire once. -/
def c3wOps : List (Op Nat Unit) :=
  [.register "model" counterLoader none 100, .get "model" false 0]

/-- The descriptor of `"model"` after `c3wOps`. -/
def c3wComp : Comp Nat Unit :=
  { loader := counterLoader, unloader := none, state := .loaded,
    inst := some 1, memory_mb := 100, last_used := 0, access_count := 1,
    loaderCalls := 1, unloaderCalls := 0 }

/-- C4 scenario: a loaded component whose unloader raises. -/
def c4m : Mgr Nat Unit :=
  run [.register "model" counterLoader (some raisingUnloader) 100,
       .get "model" false 0]

/-- The descriptor of `"model"` in `c4m`. -/
def c4Comp : Comp Nat Unit :=
  { loader := counterLoader, unloader := some raisingUnloader,
    state := .loaded, inst := some 1, memory_mb := 100, last_used := 0,
    access_count := 1, loaderCalls := 1, unloaderCalls := 0 }

/-- C4 counterexample run: the raising unloader is invoked by an explicit
eviction. -/
def c4Ops : List (Op Nat Unit) :=
  [.register "model" counterLoader (some raisingUnloader) 100,
   .get "model" false 0,
   .evict "model"]

/-- C5, spec scenario WITHOUT an unloader (the `register_component` default). -/
def c5m0 : Mgr Nat Unit :=
  register_component (Mgr.init Nat Unit) "model" counterLoader none 100

def c5a : GetResult Nat Unit × Mgr Nat Unit := get_component c5m0 "model" false 0

def c5b : GetResult Nat Unit × Mgr Nat Unit := get_component c5a.2 "model" false 1

def c5c : Mgr Nat Unit := unload_component c5b.2 "model"

def c5d : GetResult Nat Unit × Mgr Nat Unit := get_component c5c "model" false 2

/-- C5, same scenario WITH a (well-behaved) unloader supplied. -/
def c5u0 : Mgr Nat Unit :=
  register_component (Mgr.init Nat Unit) "model" counterLoader
    (some okUnloader) 100

def c5ua : GetResult Nat Unit × Mgr Nat Unit := get_component c5u0 "model" false 0

def c5ub : GetResult Nat Unit × Mgr Nat Unit := get_component c5ua.2 "model" false 1

def c5uc : Mgr Nat Unit := unload_component c5ub.2 "model"

def c5ud : GetResult Nat Unit × Mgr Nat Unit := get_component c5uc "model" false 2

/-- C6 counterexample run: a loaded component registered without an unloader,
then `unload_all`. -/
def c6CexOps : List (Op Nat Unit) :=
  [.register "a" counterLoader none 100, .get "a" false 0, .evictAll]

/-- C6 witness manager: one loaded component with a well-behaved unloader. -/
def c6m : Mgr Nat Unit :=
  run [.register "a" counterLoader (some okUnloader) 100, .get "a" false 0]

/-- C7 witness manager: a registered, never-loaded component whose loader
fails on the first call and succeeds on the second. -/
def c7m : Mgr Nat Unit := run [.register "model" failThenOkLoader none 100]

/-- The descriptor of `"model"` in `c7m`. -/
def c7Comp : Comp Nat Unit :=
  { loader := failThenOkLoader, unloader := none, state := .not_loaded,
    inst := none, memory_mb := 100, last_used := 0, access_count := 0,
    loaderCalls := 0, unloaderCalls := 0 }

/-- C8 witness manager: a component loaded at time 5. -/
def c8m : Mgr Nat Unit :=
  run [.register "model" counterLoader none 100, .get "model" false 5]

/-- The descriptor of `"model"` in `c8m`. -/
def c8Comp : Comp Nat Unit :=
  { loader := counterLoader, unloader := none, state := .loaded,
    inst := some 1, memory_mb := 100, last_used := 5, access_count := 1,
    loaderCalls := 1, unloaderCalls := 0 }

/-- C10 witness manager: a component loaded at time 5. -/
def c10m : Mgr Nat Unit :=
  run [.register "model" counterLoader none 100, .get "model" false 5]

/-- The descriptor of `"model"` in `c10m`. -/
def c10Comp : Comp Nat Unit :=
  { loader := counterLoader, unloader := none, state := .loaded,
    inst := some 1, memory_mb := 100, last_used := 5, access_count := 1,
    loaderCalls := 1, unloaderCalls := 0 }

/-!
Interleaving model for the two concurrency claims.

`get_component` executes its whole body — including the loader call of line 76
and the polling sleep of line 70 — while holding `self.lock`.  To settle the
concurrency claims the model below makes the lock and the intermediate program
points explicit.  The scenario is the one the claims describe: one component,
already registered and never loaded, no pending timers, and `n` threads each
performing one `acquire` (`get_component(name)`, `force_reload=False`) whose
loader succeeds.  The loader is instrumented: its `k`-th invocation (0-based)
returns the value `k` after a caller-chosen number `d` of internal steps, so
two distinct invocations would be observably different.

The model is a sound refinement of CPython: it allows MORE interleavings than
reality (the individual statements of the lock holder are separate steps here,
while CPython additionally serializes them), so every invariant proved over
all its reachable states holds of the real program.
-/

namespace Conc

/-- Program counter of one thread inside `get_component` (lines 52-90).

* `start` — before `with self.lock` (line 54; the thread blocks here while
  another thread holds the lock);
* `check` — holding the lock, at the state-test cascade of lines 65/73/88
  (the tests run back-to-back under the lock, with no suspension point
  between them);
* `waitLoop k` — holding the lock, inside the polling loop of lines 67-70
  after `k` iterations;
* `timedOut` — `raise TimeoutError` of line 69 propagated out of the `with`
  block (lock released);
* `running r v` — holding the lock, the loader of line 76 executing, `r`
  internal steps remaining, result `v`;
* `storing v` — holding the lock, `comp["instance"] = instance` of line 77
  done, the `state = LOADED` write of line 78 still pending;
* `done ret` — returned `ret` (line 82 or line 90), lock released. -/
inductive PC where
  | start
  | check
  | waitLoop (k : Nat)
  | timedOut
  | running (r : Nat) (v : Nat)
  | storing (v : Nat)
  | done (ret : Nat)
deriving DecidableEq, Repr

/-- Does this program point sit inside the `with self.lock` block? -/
def holdsLock : PC → Bool
  | .check => true
  | .waitLoop _ => true
  | .running _ _ => true
  | .storing _ => true
  | _ => false

/-- Is this program point inside the loader call (lines 76-77)? -/
def isBusy : PC → Bool
  | .running _ _ => true
  | .storing _ => true
  | _ => false

/-- Global state: the program counter of each thread, the lock owner, and the
shared descriptor fields read or written on this code path (`state`,
`instance`, plus the ghost count of loader invocations).  `last_used` and
`access_count` are also written by the source but are never read on this path
and do not influence control flow, so they are omitted here (the sequential
model covers them). -/
structure Sys where
  pcs : Nat → PC
  lock : Option Nat
  state : LoadState
  inst : Option Nat
  loaderCalls : Nat

/-- Initial state of the scenario: `n` threads about to call
`get_component`, component registered and never loaded. -/
def init : Sys :=
  { pcs := fun _ => .start
    lock := none
    state := .not_loaded
    inst := none
    loaderCalls := 0 }

/-- One interleaving step, for a system of `n` threads whose loader takes `d`
internal steps.  Each constructor is one statement of `get_component`
executed by thread `i`. -/
inductive Step (n d : Nat) : Sys → Sys → Prop where
  /-- Line 54: `with self.lock` succeeds only when no one holds the lock. -/
  | lockEnter (s : Sys) (i : Nat) (hi : i < n)
      (hpc : s.pcs i = .start) (hl : s.lock = none) :
      Step n d s { s with pcs := Function.update s.pcs i .check, lock := some i }
  /-- Line 65: the state is `LOADING`, enter the polling loop of line 67. -/
  | seeLoading (s : Sys) (i : Nat) (hi : i < n)
      (hpc : s.pcs i = .check) (hs : s.state = .loading) :
      Step n d s { s with pcs := Function.update s.pcs i (.waitLoop 0) }
  /-- Lines 73-76: state `NOT_LOADED`/`ERROR` (`force_reload` is false), set
  `state = LOADING` and invoke the loader (its result will be the current
  invocation index). -/
  | beginLoad (s : Sys) (i : Nat) (hi : i < n)
      (hpc : s.pcs i = .check)
      (hs : s.state = .not_loaded ∨ s.state = .error) :
      Step n d s { s with
        pcs := Function.update s.pcs i (.running d s.loaderCalls)
        state := .loading
        loaderCalls := s.loaderCalls + 1 }
  /-- Lines 88-90: state `LOADED`, return the cached `comp["instance"]` and
  leave the `with` block. -/
  | cachedReturn (s : Sys) (i v : Nat) (hi : i < n)
      (hpc : s.pcs i = .check) (hs : s.state = .loaded)
      (hv : s.inst = some v) :
      Step n d s { s with pcs := Function.update s.pcs i (.done v), lock := none }
  /-- Lines 67-70: one polling iteration within the 30-second budget. -/
  | waitTick (s : Sys) (i k : Nat) (hi : i < n)
      (hpc : s.pcs i = .waitLoop k) (hs : s.state = .loading) (hk : k < 300) :
      Step n d s { s with pcs := Function.update s.pcs i (.waitLoop (k + 1)) }
  /-- Lines 68-69: the 30-second budget is exhausted, `raise TimeoutError`
  (the exception leaves the `with` block, releasing the lock). -/
  | waitTimeout (s : Sys) (i k : Nat) (hi : i < n)
      (hpc : s.pcs i = .waitLoop k) (hs : s.state = .loading) (hk : 300 ≤ k) :
      Step n d s { s with pcs := Function.update s.pcs i .timedOut, lock := none }
  /-- Line 67: the state is no longer `LOADING`, leave the polling loop and
  fall through to the test of line 73. -/
  | waitExit (s : Sys) (i k : Nat) (hi : i < n)
      (hpc : s.pcs i = .waitLoop k) (hs : s.state ≠ .loading) :
      Step n d s { s with pcs := Function.update s.pcs i .check }
  /-- Line 76: the loader performs one internal step. -/
  | loadStep (s : Sys) (i r v : Nat) (hi : i < n)
      (hpc : s.pcs i = .running (r + 1) v) :
      Step n d s { s with pcs := Function.update s.pcs i (.running r v) }
  /-- Line 77: the loader returned; `comp["instance"]` is written while the
  state is still `LOADING`. -/
  | loadStore (s : Sys) (i v : Nat) (hi : i < n)
      (hpc : s.pcs i = .running 0 v) :
      Step n d s { s with pcs := Function.update s.pcs i (.storing v), inst := some v }
  /-- Lines 78-82: `comp["state"] = LOADED`, return the fresh instance and
  leave the `with` block. -/
  | loadFinish (s : Sys) (i v : Nat) (hi : i < n)
      (hpc : s.pcs i = .storing v) :
      Step n d s { s with
        pcs := Function.update s.pcs i (.done v)
        state := .loaded
        lock := none }

/-- Reachability from the initial scenario state. -/
def Reachable (n d : Nat) (s : Sys) : Prop :=
  Relation.ReflTransGen (Step n d) init s

/-! Concrete execution used as a witness: two threads, loader taking one
internal step.  Thread 0 acquires the lock, loads, stores, finishes; thread 1
then acquires the lock and returns the cached instance. -/

def w1 : Sys :=
  { init with pcs := Function.update init.pcs 0 .check, lock := some 0 }

def w2 : Sys :=
  { w1 with
    pcs := Function.update w1.pcs 0 (.running 1 w1.loaderCalls)
    state := .loading
    loaderCalls := w1.loaderCalls + 1 }

def w3 : Sys := { w2 with pcs := Function.update w2.pcs 0 (.running 0 0) }

def w4 : Sys :=
  { w3 with pcs := Function.update w3.pcs 0 (.storing 0), inst := some 0 }

def w5 : Sys :=
  { w4 with
    pcs := Function.update w4.pcs 0 (.done 0)
    state := .loaded
    lock := none }

def w6 : Sys :=
  { w5 with pcs := Function.update w5.pcs 1 .check, lock := some 1 }

def w7 : Sys :=
  { w6 with pcs := Function.update w6.pcs 1 (.done 0), lock := none }

/-- Concrete mid-load state used as a witness: two threads, loader taking 3600
internal steps; thread 0 holds the lock and is executing the loader, thread 1
is blocked at `with self.lock`. -/
def v1 : Sys :=
  { init with pcs := Function.update init.pcs 0 .check, lock := some 0 }

def v2 : Sys :=
  { v1 with
    pcs := Function.update v1.pcs 0 (.running 3600 v1.loaderCalls)
    state := .loading
    loaderCalls := v1.loaderCalls + 1 }

/-- Inductive invariant of the interleaving model. -/
structure Inv (s : Sys) : Prop where
  hlock : ∀ i, holdsLock (s.pcs i) = true → s.lock = some i
  hbusy : ∀ i, isBusy (s.pcs i) = true → s.state = .loading
  hloading : s.state = .loading → ∃ i, isBusy (s.pcs i) = true
  hrun : ∀ i r v, s.pcs i = .running r v →
    v = 0 ∧ s.loaderCalls = 1 ∧ s.inst = none
  hstore : ∀ i v, s.pcs i = .storing v →
    v = 0 ∧ s.loaderCalls = 1 ∧ s.inst = some 0
  hloaded : s.state = .loaded → s.inst = some 0 ∧ s.loaderCalls = 1
  hnl : s.state = .not_loaded → s.inst = none ∧ s.loaderCalls = 0
  hstate : s.state = .not_loaded ∨ s.state = .loading ∨ s.state = .loaded
  hdone : ∀ i v, s.pcs i = .done v → v = 0 ∧ s.state = .loaded
  hwait : ∀ i k, s.pcs i ≠ .waitLoop k
  htimeout : ∀ i, s.pcs i ≠ .timedOut
  hcalls : s.loaderCalls ≤ 1

end Conc

/-! ## Helper lemmas: association lists -/

theorem alookup_astore {β : Type} (l : List (String × β)) (k key : String)
    (v : β) :
    alookup (astore l k v) key = if k = key then some v else alookup l key := by
  induction l with
  | nil => simp [astore, alookup]
  | cons hd t ih =>
    obtain ⟨k1, v1⟩ := hd
    by_cases h1 : k1 = k
    · subst h1
      by_cases h2 : k1 = key <;> simp [astore, alookup, h2]
    · by_cases h2 : k1 = key
      · subst h2
        have hk : ¬ k = k1 := fun h => h1 h.symm
        simp [astore, alookup, h1, hk]
      · simp [astore, alookup, h1, h2, ih]

theorem mem_keys_of_alookup {β : Type} (l : List (String × β)) (key : String)
    (v : β) (h : alookup l key = some v) : key ∈ l.map Prod.fst := by
  induction l with
  | nil => simp [alookup] at h
  | cons hd t ih =>
    obtain ⟨k1, v1⟩ := hd
    by_cases h1 : k1 = key
    · simp [h1]
    · simp [alookup, h1] at h
      simp [ih h]

theorem alookup_eq_none {β : Type} (l : List (String × β)) (key : String)
    (h : key ∉ l.map Prod.fst) : alookup l key = none := by
  induction l with
  | nil => rfl
  | cons hd t ih =>
    obtain ⟨k1, v1⟩ := hd
    rw [List.map_cons] at h
    have h1 : ¬ k1 = key := fun he => h (by simp [he])
    have h2 : key ∉ t.map Prod.fst := fun hm => h (List.mem_cons_of_mem _ hm)
    simp [alookup, h1, ih h2]

theorem astore_keys {β : Type} (l : List (String × β)) (k : String) (v w : β)
    (h : alookup l k = some w) :
    (astore l k v).map Prod.fst = l.map Prod.fst := by
  induction l with
  | nil => simp [alookup] at h
  | cons hd t ih =>
    obtain ⟨k1, v1⟩ := hd
    by_cases h1 : k1 = k
    · simp [astore, h1]
    · simp [alookup, h1] at h
      simp [astore, h1, ih h]

/-! ## Helper lemmas: `unload_component` and `unload_all` -/

/-- Lemma: `unload_component` acts on the named entry as `evictEntry` and touches
nothing else. -/
theorem unload_component_lookup {α ε : Type} (m : Mgr α ε) (name key : String) :
    alookup (unload_component m name).components key =
      if name = key then (alookup m.components name).map evictEntry
      else alookup m.components key := by
  unfold unload_component
  by_cases h : name = key
  · subst h
    rcases hl : alookup m.components name with _ | c
    · simp [hl]
    · rcases hu : c.unloader with _ | u
      · simp [hl, hu, evictEntry]
      · by_cases hs : c.state = .loaded
        · rcases hr : u c.inst with e | x <;>
            simp [hl, hs, hu, hr, evictEntry, alookup_astore]
        · simp [hl, hs, hu, evictEntry]
  · rcases hl : alookup m.components name with _ | c
    · simp [h, hl]
    · rcases hu : c.unloader with _ | u
      · simp [h, hl, hu]
      · by_cases hs : c.state = .loaded
        · rcases hr : u c.inst with e | x <;>
            simp [h, hl, hs, hu, hr, alookup_astore]
        · simp [h, hl, hs, hu]

theorem unload_component_timers {α ε : Type} (m : Mgr α ε) (name : String) :
    (unload_component m name).unload_timers = m.unload_timers := by
  unfold unload_component
  rcases hl : alookup m.components name with _ | c
  · rfl
  · rcases hu : c.unloader with _ | u
    · simp [hu]
    · by_cases hs : c.state = .loaded
      · rcases hr : u c.inst with e | x <;> simp [hu, hs, hr]
      · simp [hu, hs]

theorem unload_component_keys {α ε : Type} (m : Mgr α ε) (name : String) :
    (unload_component m name).components.map Prod.fst =
      m.components.map Prod.fst := by
  unfold unload_component
  rcases hl : alookup m.components name with _ | c
  · rfl
  · rcases hu : c.unloader with _ | u
    · simp [hu]
    · by_cases hs : c.state = .loaded
      · rcases hr : u c.inst with e | x <;>
          simp [hu, hs, hr, astore_keys _ _ _ _ hl]
      · simp [hu, hs]

/-- Folding `unload_component` over a duplicate-free list of names applies
`evictEntry` to exactly the entries whose key occurs in the list. -/
theorem foldl_unload_lookup {α ε : Type} (ns : List String) (m : Mgr α ε)
    (key : String) (hnd : ns.Nodup) :
    alookup (ns.foldl unload_component m).components key =
      if key ∈ ns then (alookup m.components key).map evictEntry
      else alookup m.components key := by
  induction ns generalizing m with
  | nil => simp
  | cons n t ih =>
    have hnd2 : t.Nodup := hnd.of_cons
    have hnmem : n ∉ t := by
      intro hmem
      exact (List.nodup_cons.mp hnd).1 hmem
    simp only [List.foldl_cons]
    rw [ih _ hnd2]
    by_cases hkt : key ∈ t
    · have hne : n ≠ key := fun h => hnmem (h ▸ hkt)
      simp [hkt, unload_component_lookup, hne, List.mem_cons]
    · by_cases hkn : key = n
      · subst hkn
        simp [hkt, unload_component_lookup, List.mem_cons]
      · have hne : n ≠ key := fun h => hkn h.symm
        simp [hkt, unload_component_lookup, hne, hkn, List.mem_cons]

theorem foldl_unload_timers {α ε : Type} (ns : List String) (m : Mgr α ε) :
    (ns.foldl unload_component m).unload_timers = m.unload_timers := by
  induction ns generalizing m with
  | nil => rfl
  | cons n t ih => simp [ih, unload_component_timers]

theorem foldl_unload_keys {α ε : Type} (ns : List String) (m : Mgr α ε) :
    (ns.foldl unload_component m).components.map Prod.fst =
      m.components.map Prod.fst := by
  induction ns generalizing m with
  | nil => rfl
  | cons n t ih => simp [ih, unload_component_keys]

/-- Lemma: `unload_all` on a manager with duplicate-free keys: every entry goes
through `evictEntry`, the timer dictionary is emptied. -/
theorem unload_all_lookup {α ε : Type} (m : Mgr α ε) (key : String)
    (hnd : (m.components.map Prod.fst).Nodup) :
    alookup (unload_all m).components key =
      (alookup m.components key).map evictEntry := by
  unfold unload_all
  simp only
  rw [foldl_unload_lookup _ _ _ hnd]
  by_cases hmem : key ∈ m.components.map Prod.fst
  · simp [hmem]
  · simp [hmem, alookup_eq_none _ _ hmem]

theorem unload_all_timers {α ε : Type} (m : Mgr α ε) :
    (unload_all m).unload_timers = [] := rfl

theorem unload_all_keys {α ε : Type} (m : Mgr α ε) :
    (unload_all m).components.map Prod.fst = m.components.map Prod.fst := by
  unfold unload_all
  simp [foldl_unload_keys]

/-! ## Helper lemmas: the interleaving model -/

namespace Conc

theorem holdsLock_of_isBusy {p : PC} (h : isBusy p = true) :
    holdsLock p = true := by
  cases p <;> simp [isBusy, holdsLock] at h ⊢

theorem lock_unique {s : Sys} (hInv : Inv s) {i j : Nat}
    (hi : holdsLock (s.pcs i) = true) (hj : holdsLock (s.pcs j) = true) :
    i = j := by
  have h1 := hInv.hlock i hi
  have h2 := hInv.hlock j hj
  rw [h1] at h2
  exact Option.some.inj h2

theorem inv_init : Inv init := by
  refine ⟨?_, ?_, ?_, ?_, ?_, ?_, ?_, ?_, ?_, ?_, ?_, ?_⟩ <;>
    simp [init, holdsLock, isBusy]

theorem inv_step {n d : Nat} {s t : Sys} (hInv : Inv s) (hstep : Step n d s t) :
    Inv t := by
  cases hstep with
  | lockEnter i hi hpc hl =>
    refine ⟨?_, ?_, ?_, ?_, ?_, ?_, ?_, ?_, ?_, ?_, ?_, ?_⟩ <;> dsimp only
    · intro j hj
      by_cases hji : j = i
      · subst hji; rfl
      · rw [Function.update_noteq hji] at hj
        exact absurd (hInv.hlock j hj) (by rw [hl]; exact fun h => Option.noConfusion h)
    · intro j hj
      by_cases hji : j = i
      · subst hji; rw [Function.update_same] at hj; exact absurd hj (by simp [holdsLock, isBusy])
      · rw [Function.update_noteq hji] at hj
        exact hInv.hbusy j hj
    · intro hld
      obtain ⟨j, hj⟩ := hInv.hloading hld
      have hji : j ≠ i := by
        intro h; subst h; rw [hpc] at hj; exact absurd hj (by simp [isBusy])
      exact ⟨j, by rw [Function.update_noteq hji]; exact hj⟩
    · intro j r v hj
      by_cases hji : j = i
      · subst hji; rw [Function.update_same] at hj; exact absurd hj (by simp)
      · rw [Function.update_noteq hji] at hj
        exact hInv.hrun j r v hj
    · intro j v hj
      by_cases hji : j = i
      · subst hji; rw [Function.update_same] at hj; exact absurd hj (by simp)
      · rw [Function.update_noteq hji] at hj
        exact hInv.hstore j v hj
    · exact hInv.hloaded
    · exact hInv.hnl
    · exact hInv.hstate
    · intro j v hj
      by_cases hji : j = i
      · subst hji; rw [Function.update_same] at hj; exact absurd hj (by simp)
      · rw [Function.update_noteq hji] at hj
        exact hInv.hdone j v hj
    · intro j k
      by_cases hji : j = i
      · subst hji; rw [Function.update_same]; simp
      · rw [Function.update_noteq hji]; exact hInv.hwait j k
    · intro j
      by_cases hji : j = i
      · subst hji; rw [Function.update_same]; simp
      · rw [Function.update_noteq hji]; exact hInv.htimeout j
    · exact hInv.hcalls
  | seeLoading i hi hpc hs =>
    exfalso
    obtain ⟨j, hj⟩ := hInv.hloading hs
    have hij : i = j :=
      lock_unique hInv (by rw [hpc]; rfl) (holdsLock_of_isBusy hj)
    rw [← hij, hpc] at hj
    exact absurd hj (by simp [isBusy])
  | beginLoad i hi hpc hs =>
    have hnl0 : s.state = .not_loaded := by
      rcases hs with h | h
      · exact h
      · exfalso
        rcases hInv.hstate with h2 | h2 | h2 <;> rw [h2] at h <;> cases h
    obtain ⟨hinst0, hcalls0⟩ := hInv.hnl hnl0
    have hlocki : s.lock = some i := hInv.hlock i (by rw [hpc]; rfl)
    refine ⟨?_, ?_, ?_, ?_, ?_, ?_, ?_, ?_, ?_, ?_, ?_, ?_⟩ <;> dsimp only
    · intro j hj
      by_cases hji : j = i
      · subst hji; exact hlocki
      · rw [Function.update_noteq hji] at hj
        exact hInv.hlock j hj
    · intro j _
      rfl
    · intro _
      exact ⟨i, by rw [Function.update_same]; rfl⟩
    · intro j r v hj
      by_cases hji : j = i
      · subst hji; rw [Function.update_same] at hj
        cases hj
        exact ⟨hcalls0, by rw [hcalls0], hinst0⟩
      · rw [Function.update_noteq hji] at hj
        have := hInv.hbusy j (by rw [hj]; rfl)
        rw [hnl0] at this; cases this
    · intro j v hj
      by_cases hji : j = i
      · subst hji; rw [Function.update_same] at hj; cases hj
      · rw [Function.update_noteq hji] at hj
        have := hInv.hbusy j (by rw [hj]; rfl)
        rw [hnl0] at this; cases this
    · intro h; cases h
    · intro h; cases h
    · exact Or.inr (Or.inl rfl)
    · intro j v hj
      by_cases hji : j = i
      · subst hji; rw [Function.update_same] at hj; cases hj
      · rw [Function.update_noteq hji] at hj
        have := (hInv.hdone j v hj).2
        rw [hnl0] at this; cases this
    · intro j k
      by_cases hji : j = i
      · subst hji; rw [Function.update_same]; simp
      · rw [Function.update_noteq hji]; exact hInv.hwait j k
    · intro j
      by_cases hji : j = i
      · subst hji; rw [Function.update_same]; simp
      · rw [Function.update_noteq hji]; exact hInv.htimeout j
    · simp [hcalls0]
  | cachedReturn i v hi hpc hs hv =>
    obtain ⟨hinst0, hcalls1⟩ := hInv.hloaded hs
    have hv0 : v = 0 := by
      rw [hinst0] at hv; exact (Option.some.inj hv).symm
    have hlocki : s.lock = some i := hInv.hlock i (by rw [hpc]; rfl)
    refine ⟨?_, ?_, ?_, ?_, ?_, ?_, ?_, ?_, ?_, ?_, ?_, ?_⟩ <;> dsimp only
    · intro j hj
      by_cases hji : j = i
      · subst hji; rw [Function.update_same] at hj
        exact absurd hj (by simp [holdsLock])
      · rw [Function.update_noteq hji] at hj
        have := hInv.hlock j hj
        rw [hlocki] at this
        exact absurd (Option.some.inj this).symm hji
    · intro j hj
      by_cases hji : j = i
      · subst hji; rw [Function.update_same] at hj
        exact absurd hj (by simp [isBusy])
      · rw [Function.update_noteq hji] at hj
        exact hInv.hbusy j hj
    · intro h
      have h2 : s.state = .loading := h
      rw [hs] at h2; cases h2
    · intro j r w hj
      by_cases hji : j = i
      · subst hji; rw [Function.update_same] at hj; cases hj
      · rw [Function.update_noteq hji] at hj
        exact hInv.hrun j r w hj
    · intro j w hj
      by_cases hji : j = i
      · subst hji; rw [Function.update_same] at hj; cases hj
      · rw [Function.update_noteq hji] at hj
        exact hInv.hstore j w hj
    · exact hInv.hloaded
    · exact hInv.hnl
    · exact hInv.hstate
    · intro j w hj
      by_cases hji : j = i
      · subst hji; rw [Function.update_same] at hj
        cases hj
        exact ⟨hv0, hs⟩
      · rw [Function.update_noteq hji] at hj
        exact hInv.hdone j w hj
    · intro j k
      by_cases hji : j = i
      · subst hji; rw [Function.update_same]; simp
      · rw [Function.update_noteq hji]; exact hInv.hwait j k
    · intro j
      by_cases hji : j = i
      · subst hji; rw [Function.update_same]; simp
      · rw [Function.update_noteq hji]; exact hInv.htimeout j
    · exact hInv.hcalls
  | waitTick i k hi hpc hs hk =>
    exact absurd hpc (hInv.hwait i k)
  | waitTimeout i k hi hpc hs hk =>
    exact absurd hpc (hInv.hwait i k)
  | waitExit i k hi hpc hs =>
    exact absurd hpc (hInv.hwait i k)
  | loadStep i r v hi hpc =>
    obtain ⟨hv0, hcalls1, hinstn⟩ := hInv.hrun i (r + 1) v hpc
    have hlocki : s.lock = some i := hInv.hlock i (by rw [hpc]; rfl)
    have hsl : s.state = .loading := hInv.hbusy i (by rw [hpc]; rfl)
    refine ⟨?_, ?_, ?_, ?_, ?_, ?_, ?_, ?_, ?_, ?_, ?_, ?_⟩ <;> dsimp only
    · intro j hj
      by_cases hji : j = i
      · subst hji; exact hlocki
      · rw [Function.update_noteq hji] at hj
        exact hInv.hlock j hj
    · intro j hj
      by_cases hji : j = i
      · subst hji; exact hsl
      · rw [Function.update_noteq hji] at hj
        exact hInv.hbusy j hj
    · intro _
      exact ⟨i, by rw [Function.update_same]; rfl⟩
    · intro j r2 w hj
      by_cases hji : j = i
      · subst hji; rw [Function.update_same] at hj
        cases hj
        exact ⟨hv0, hcalls1, hinstn⟩
      · rw [Function.update_noteq hji] at hj
        exact hInv.hrun j r2 w hj
    · intro j w hj
      by_cases hji : j = i
      · subst hji; rw [Function.update_same] at hj; cases hj
      · rw [Function.update_noteq hji] at hj
        exact hInv.hstore j w hj
    · exact hInv.hloaded
    · exact hInv.hnl
    · exact hInv.hstate
    · intro j w hj
      by_cases hji : j = i
      · subst hji; rw [Function.update_same] at hj; cases hj
      · rw [Function.update_noteq hji] at hj
        exact hInv.hdone j w hj
    · intro j k2
      by_cases hji : j = i
      · subst hji; rw [Function.update_same]; simp
      · rw [Function.update_noteq hji]; exact hInv.hwait j k2
    · intro j
      by_cases hji : j = i
      · subst hji; rw [Function.update_same]; simp
      · rw [Function.update_noteq hji]; exact hInv.htimeout j
    · exact hInv.hcalls
  | loadStore i v hi hpc =>
    obtain ⟨hv0, hcalls1, hinstn⟩ := hInv.hrun i 0 v hpc
    have hlocki : s.lock = some i := hInv.hlock i (by rw [hpc]; rfl)
    have hsl : s.state = .loading := hInv.hbusy i (by rw [hpc]; rfl)
    refine ⟨?_, ?_, ?_, ?_, ?_, ?_, ?_, ?_, ?_, ?_, ?_, ?_⟩ <;> dsimp only
    · intro j hj
      by_cases hji : j = i
      · subst hji; exact hlocki
      · rw [Function.update_noteq hji] at hj
        exact hInv.hlock j hj
    · intro j hj
      by_cases hji : j = i
      · subst hji; exact hsl
      · rw [Function.update_noteq hji] at hj
        exact hInv.hbusy j hj
    · intro _
      exact ⟨i, by rw [Function.update_same]; rfl⟩
    · intro j r w hj
      by_cases hji : j = i
      · subst hji; rw [Function.update_same] at hj; cases hj
      · rw [Function.update_noteq hji] at hj
        have hij := lock_unique hInv (by rw [hpc]; rfl)
          (holdsLock_of_isBusy (p := s.pcs j) (by rw [hj]; rfl))
        exact absurd hij.symm hji
    · intro j w hj
      by_cases hji : j = i
      · subst hji; rw [Function.update_same] at hj
        cases hj
        exact ⟨hv0, hcalls1, by rw [hv0]⟩
      · rw [Function.update_noteq hji] at hj
        have hij := lock_unique hInv (by rw [hpc]; rfl)
          (holdsLock_of_isBusy (p := s.pcs j) (by rw [hj]; rfl))
        exact absurd hij.symm hji
    · intro h
      have h2 : s.state = .loaded := h
      rw [hsl] at h2; cases h2
    · intro h
      have h2 : s.state = .not_loaded := h
      rw [hsl] at h2; cases h2
    · exact Or.inr (Or.inl hsl)
    · intro j w hj
      by_cases hji : j = i
      · subst hji; rw [Function.update_same] at hj; cases hj
      · rw [Function.update_noteq hji] at hj
        have := (hInv.hdone j w hj).2
        rw [hsl] at this; cases this
    · intro j k2
      by_cases hji : j = i
      · subst hji; rw [Function.update_same]; simp
      · rw [Function.update_noteq hji]; exact hInv.hwait j k2
    · intro j
      by_cases hji : j = i
      · subst hji; rw [Function.update_same]; simp
      · rw [Function.update_noteq hji]; exact hInv.htimeout j
    · exact hInv.hcalls
  | loadFinish i v hi hpc =>
    obtain ⟨hv0, hcalls1, hinst0⟩ := hInv.hstore i v hpc
    have hlocki : s.lock = some i := hInv.hlock i (by rw [hpc]; rfl)
    have hsl : s.state = .loading := hInv.hbusy i (by rw [hpc]; rfl)
    refine ⟨?_, ?_, ?_, ?_, ?_, ?_, ?_, ?_, ?_, ?_, ?_, ?_⟩ <;> dsimp only
    · intro j hj
      by_cases hji : j = i
      · subst hji; rw [Function.update_same] at hj
        exact absurd hj (by simp [holdsLock])
      · rw [Function.update_noteq hji] at hj
        have := hInv.hlock j hj
        rw [hlocki] at this
        exact absurd (Option.some.inj this).symm hji
    · intro j hj
      by_cases hji : j = i
      · subst hji; rw [Function.update_same] at hj
        exact absurd hj (by simp [isBusy])
      · rw [Function.update_noteq hji] at hj
        have hij := lock_unique hInv (by rw [hpc]; rfl)
          (holdsLock_of_isBusy hj)
        exact absurd hij.symm hji
    · intro h
      have h2 : LoadState.loaded = LoadState.loading := h
      cases h2
    · intro j r w hj
      by_cases hji : j = i
      · subst hji; rw [Function.update_same] at hj; cases hj
      · rw [Function.update_noteq hji] at hj
        have hij := lock_unique hInv (by rw [hpc]; rfl)
          (holdsLock_of_isBusy (p := s.pcs j) (by rw [hj]; rfl))
        exact absurd hij.symm hji
    · intro j w hj
      by_cases hji : j = i
      · subst hji; rw [Function.update_same] at hj; cases hj
      · rw [Function.update_noteq hji] at hj
        have hij := lock_unique hInv (by rw [hpc]; rfl)
          (holdsLock_of_isBusy (p := s.pcs j) (by rw [hj]; rfl))
        exact absurd hij.symm hji
    · intro _
      exact ⟨hinst0, hcalls1⟩
    · intro h
      have h2 : LoadState.loaded = LoadState.not_loaded := h
      cases h2
    · exact Or.inr (Or.inr rfl)
    · intro j w hj
      by_cases hji : j = i
      · subst hji; rw [Function.update_same] at hj
        cases hj
        exact ⟨hv0, rfl⟩
      · rw [Function.update_noteq hji] at hj
        exact ⟨(hInv.hdone j w hj).1, rfl⟩
    · intro j k2
      by_cases hji : j = i
      · subst hji; rw [Function.update_same]; simp
      · rw [Function.update_noteq hji]; exact hInv.hwait j k2
    · intro j
      by_cases hji : j = i
      · subst hji; rw [Function.update_same]; simp
      · rw [Function.update_noteq hji]; exact hInv.htimeout j
    · exact hInv.hcalls

theorem inv_reachable {n d : Nat} {s : Sys} (h : Reachable n d s) : Inv s := by
  induction h with
  | refl => exact inv_init
  | tail _ hstep ih => exact inv_step ih hstep

theorem w7_reachable : Reachable 2 1 w7 := by
  have h0 : Reachable 2 1 init := Relation.ReflTransGen.refl
  have h1 : Reachable 2 1 w1 :=
    h0.tail (Step.lockEnter init 0 (by decide) rfl rfl)
  have h2 : Reachable 2 1 w2 :=
    h1.tail (Step.beginLoad w1 0 (by decide) rfl (Or.inl rfl))
  have h3 : Reachable 2 1 w3 :=
    h2.tail (Step.loadStep w2 0 0 0 (by decide) rfl)
  have h4 : Reachable 2 1 w4 :=
    h3.tail (Step.loadStore w3 0 0 (by decide) rfl)
  have h5 : Reachable 2 1 w5 :=
    h4.tail (Step.loadFinish w4 0 0 (by decide) rfl)
  have h6 : Reachable 2 1 w6 :=
    h5.tail (Step.lockEnter w5 1 (by decide) rfl rfl)
  exact h6.tail (Step.cachedReturn w6 1 0 (by decide) rfl rfl rfl)

theorem v2_reachable : Reachable 2 3600 v2 := by
  have h0 : Reachable 2 3600 init := Relation.ReflTransGen.refl
  have h1 : Reachable 2 3600 v1 :=
    h0.tail (Step.lockEnter init 0 (by decide) rfl rfl)
  exact h1.tail (Step.beginLoad v1 0 (by decide) rfl (Or.inl rfl))

end Conc

/-! ## Helper lemmas: the amended instance/state invariant (C3) -/

theorem instStateInv_evictEntry {α ε : Type} {c : Comp α ε}
    (h : InstStateInv c) : InstStateInv (evictEntry c) := by
  unfold evictEntry
  rcases hu : c.unloader with _ | u
  · exact h
  · by_cases hs : c.state = .loaded
    · rcases hr : u c.inst with e | x
      · simp only [hs, if_pos, hr]
        exact ⟨fun _ => h.1 hs, (fun h2 => by cases h2)⟩
      · simp only [hs, if_pos, hr]
        exact ⟨(fun h2 => by cases h2), fun _ => rfl⟩
    · simp only [if_neg hs]
      exact h

theorem instStateInv_unload {α ε : Type} {m : Mgr α ε}
    (h : ∀ name c, alookup m.components name = some c → InstStateInv c)
    (nm : String) :
    ∀ name c, alookup (unload_component m nm).components name = some c →
      InstStateInv c := by
  intro key c hc
  rw [unload_component_lookup] at hc
  by_cases hk : nm = key
  · rw [if_pos hk] at hc
    subst hk
    rcases hl : alookup m.components nm with _ | c0
    · rw [hl] at hc; cases hc
    · rw [hl] at hc
      cases hc
      exact instStateInv_evictEntry (h nm c0 hl)
  · rw [if_neg hk] at hc
    exact h key c hc

theorem instStateInv_get {α ε : Type} {m : Mgr α ε}
    (h : ∀ name c, alookup m.components name = some c → InstStateInv c)
    (nm : String) (force : Bool) (now : Int) :
    ∀ key c, alookup (get_component m nm force now).2.components key = some c →
      InstStateInv c := by
  intro key c hc
  unfold get_component at hc
  rcases hl : alookup m.components nm with _ | comp
  · simp only [hl] at hc
    exact h key c hc
  · simp only [hl] at hc
    by_cases hld : comp.state = .loading
    · rw [if_pos hld] at hc
      exact h key c hc
    · rw [if_neg hld] at hc
      by_cases hforce :
          (force || decide (comp.state = .not_loaded) ||
            decide (comp.state = .error)) = true
      · rw [if_pos hforce] at hc
        rcases hres : comp.loader comp.loaderCalls with e | v
        · rw [hres] at hc
          simp only [alookup_astore] at hc
          by_cases hk : nm = key
          · rw [if_pos hk] at hc
            cases hc
            have h0 := h nm comp hl
            exact ⟨(fun h2 => by cases h2), (fun h2 => by cases h2)⟩
          · rw [if_neg hk] at hc
            exact h key c hc
        · rw [hres] at hc
          simp only [alookup_astore] at hc
          by_cases hk : nm = key
          · rw [if_pos hk] at hc
            cases hc
            exact ⟨fun _ => rfl, (fun h2 => by cases h2)⟩
          · rw [if_neg hk] at hc
            exact h key c hc
      · rw [if_neg hforce] at hc
        simp only [alookup_astore] at hc
        by_cases hk : nm = key
        · rw [if_pos hk] at hc
          cases hc
          have h0 := h nm comp hl
          exact ⟨fun h2 => h0.1 h2, fun h2 => h0.2 h2⟩
        · rw [if_neg hk] at hc
          exact h key c hc

theorem instStateInv_foldl_unload {α ε : Type} {m : Mgr α ε}
    (h : ∀ name c, alookup m.components name = some c → InstStateInv c)
    (ns : List String) :
    ∀ name c, alookup (ns.foldl unload_component m).components name = some c →
      InstStateInv c := by
  induction ns generalizing m with
  | nil => exact h
  | cons hd t ih => exact ih (instStateInv_unload h hd)

theorem instStateInv_applyOp {α ε : Type} {m : Mgr α ε}
    (h : ∀ name c, alookup m.components name = some c → InstStateInv c)
    (op : Op α ε) :
    ∀ name c, alookup (applyOp m op).components name = some c →
      InstStateInv c := by
  cases op with
  | register n l u mem =>
    intro key c hc
    unfold applyOp register_component at hc
    simp only [alookup_astore] at hc
    by_cases hk : n = key
    · rw [if_pos hk] at hc
      cases hc
      exact ⟨(fun h2 => by cases h2), fun _ => rfl⟩
    · rw [if_neg hk] at hc
      exact h key c hc
  | get n f now => exact instStateInv_get h n f now
  | schedule n t now => exact fun key c hc => h key c hc
  | fire n t now =>
    intro key c hc
    unfold applyOp «_unload_if_idle» at hc
    rcases hl : alookup m.components n with _ | comp
    · simp only [hl] at hc
      exact h key c hc
    · simp only [hl] at hc
      by_cases hg : (t ≤ now - comp.last_used ∧ comp.state = .loaded)
      · rw [if_pos hg] at hc
        exact instStateInv_unload h n key c hc
      · rw [if_neg hg] at hc
        exact h key c hc
  | evict n => exact instStateInv_unload h n
  | evictAll =>
    intro key c hc
    exact instStateInv_foldl_unload h (m.components.map Prod.fst) key c hc

/-- Re-evicting changes neither the state nor the instance of an entry. -/
theorem evictEntry_idem {α ε : Type} (c : Comp α ε) :
    (evictEntry (evictEntry c)).state = (evictEntry c).state ∧
    (evictEntry (evictEntry c)).inst = (evictEntry c).inst := by
  unfold evictEntry
  rcases hu : c.unloader with _ | u
  · simp [hu]
  · by_cases hs : c.state = .loaded
    · rcases hr : u c.inst with e | x
      · simp [hs, hu, hr]
      · simp [hs, hu, hr]
    · simp [hs, hu]

/-! ## Claim theorems -/

/-- C1: in the interleaving model of `get_component` (global lock held for the
whole body), over every state reachable by `n` concurrent acquires of a
never-loaded component with a loader of any duration `d`: the loader has been
invoked at most once; every caller that returned received the single loader
result (invocation 0), with the instance fully stored and the state `LOADED`
at that point (no half-initialized instance is ever returned); and as soon as
any caller has completed, the loader has been invoked exactly once. -/
theorem c1_at_most_one_load (n d : Nat) (s : Conc.Sys)
    (h : Conc.Reachable n d s) :
    s.loaderCalls ≤ 1 ∧
    (∀ i v, s.pcs i = .done v → v = 0 ∧ s.inst = some 0 ∧ s.state = .loaded) ∧
    ((∃ i v, s.pcs i = .done v) → s.loaderCalls = 1) := by
  have hInv := Conc.inv_reachable h
  refine ⟨hInv.hcalls, ?_, ?_⟩
  · intro i v hp
    obtain ⟨hv, hst⟩ := hInv.hdone i v hp
    exact ⟨hv, (hInv.hloaded hst).1, hst⟩
  · rintro ⟨i, v, hp⟩
    exact (hInv.hloaded (hInv.hdone i v hp).2).2

/-- C1 witness: a complete two-thread execution (loader duration 1) in which
thread 0 loads and thread 1 receives the cached instance; the theorem applied
to its final state yields that the loader ran exactly once. -/
theorem c1_witness : Conc.w7.loaderCalls = 1 :=
  (c1_at_most_one_load 2 1 Conc.w7 Conc.w7_reachable).2.2 ⟨0, 0, rfl⟩

/-- C2 (divergence evidence): in the interleaving model, NO caller can ever
raise the 30-second `TimeoutError` of line 69, and the polling loop of lines
67-70 is unreachable — because the loader runs while the manager lock is
held, no second thread can ever observe state `LOADING`.  Moreover a caller
completes only once the state is `LOADED`, i.e. only after the in-flight load
has fully finished: a concurrent caller blocks on the lock for the entire loader
duration (here arbitrary `d`) and then succeeds, rather than failing
with `LoadTimeout` within the 30-second ceiling as the claim states. -/
theorem c2_no_load_timeout (n d : Nat) (s : Conc.Sys)
    (h : Conc.Reachable n d s) :
    (∀ i, s.pcs i ≠ .timedOut) ∧
    (∀ i k, s.pcs i ≠ .waitLoop k) ∧
    (∀ i v, s.pcs i = .done v → s.state = .loaded) := by
  have hInv := Conc.inv_reachable h
  exact ⟨hInv.htimeout, hInv.hwait, fun i v hp => (hInv.hdone i v hp).2⟩

/-- C2 witness: a reachable mid-load state (loader duration 3600, thread 0
inside the loader, thread 1 blocked on the lock); the theorem applied there
yields that thread 1 has not timed out. -/
theorem c2_witness : Conc.v2.pcs 1 ≠ Conc.PC.timedOut :=
  (c2_no_load_timeout 2 3600 Conc.v2 Conc.v2_reachable).1 1

/-- C3 counterexample: after registering with `okThenFailLoader`, loading
(instance 1), and a forced reload whose loader raises, the descriptor is in
state `ERROR` with the stale instance `1` still stored — so "instance is
non-null iff state is Loaded" is false after a completed operation. -/
theorem c3_instance_iff_loaded_cex :
    ¬ (∀ name c, alookup (run c3Ops).components name = some c →
        (c.inst ≠ none ↔ c.state = .loaded)) := by
  intro hcl
  have h2 := hcl "model" c3Comp rfl
  have h3 : c3Comp.state = .loaded := h2.mp (by simp [c3Comp])
  simp [c3Comp] at h3

/-- C3 amended: after every sequence of completed operations starting from a
fresh manager, every registered descriptor satisfies: `state = LOADED`
implies the instance is present, and `state = NOT_LOADED` implies the
instance is absent.  (In state `ERROR` a stale instance may remain — see the
counterexample.) -/
theorem c3_instance_state_inv {α ε : Type} (ops : List (Op α ε))
    (name : String) (c : Comp α ε)
    (h : alookup (run ops).components name = some c) :
    (c.state = .loaded → c.inst.isSome = true) ∧
    (c.state = .not_loaded → c.inst = none) := by
  have H : ∀ (l : List (Op α ε)) (m : Mgr α ε),
      (∀ nm c2, alookup m.components nm = some c2 → InstStateInv c2) →
      ∀ nm c2, alookup (l.foldl applyOp m).components nm = some c2 →
        InstStateInv c2 := by
    intro l
    induction l with
    | nil => intro m hm; exact hm
    | cons op t ih => intro m hm; exact ih _ (instStateInv_applyOp hm op)
  have h0 : ∀ nm c2, alookup (Mgr.init α ε).components nm = some c2 →
      InstStateInv c2 := by
    intro nm c2 hc2
    simp [Mgr.init, alookup] at hc2
  exact H ops (Mgr.init α ε) h0 name c h

/-- C3 witness: the invariant instantiated at the descriptor obtained by
registering and acquiring once. -/
theorem c3_witness :
    (c3wComp.state = .loaded → c3wComp.inst.isSome = true) ∧
    (c3wComp.state = .not_loaded → c3wComp.inst = none) :=
  c3_instance_state_inv c3wOps "model" c3wComp rfl

/-- C4 counterexample: evicting a loaded component whose unloader raises
leaves it in state `LOADED` with its instance intact (the unloader was
invoked once), not in `NOT_LOADED` with the instance cleared as claimed. -/
theorem c4_unloader_raises_cex :
    ((alookup (run c4Ops).components "model").map
        fun c => (c.state, c.inst, c.unloaderCalls)) =
      some (.loaded, some 1, 1) ∧
    LoadState.loaded ≠ LoadState.not_loaded := ⟨rfl, by decide⟩

/-- C4 amended: when `unload_component` is called on a `LOADED` component
whose unloader raises, the exception is caught and not propagated (the
operation is total), but the component remains `LOADED` with its instance
intact — the only effect is that the unloader was invoked (ghost counter). -/
theorem c4_unloader_raises_amended {α ε : Type} (m : Mgr α ε) (name : String)
    (comp : Comp α ε) (u : Option α → Except ε Unit) (e : ε)
    (hl : alookup m.components name = some comp)
    (hs : comp.state = .loaded)
    (hu : comp.unloader = some u)
    (he : u comp.inst = .error e) :
    unload_component m name =
      { m with components := astore m.components name {
          comp with unloaderCalls := comp.unloaderCalls + 1 } } := by
  unfold unload_component
  simp [hl, hu, hs, he]

/-- C4 witness: the amended statement at the concrete raising-unloader
scenario. -/
theorem c4_witness :
    unload_component c4m "model" =
      { c4m with components := astore c4m.components "model" {
          c4Comp with unloaderCalls := c4Comp.unloaderCalls + 1 } } :=
  c4_unloader_raises_amended c4m "model" c4Comp raisingUnloader () rfl rfl
    rfl rfl

/-- C5 counterexample: in the counter scenario of the spec with no unloader
supplied (the `register_component` default), the acquire following
`evictComponent` returns the cached `1`, not `2` as claimed — because
`unload_component` is a no-op when no unloader is present. -/
theorem c5_counter_scenario_cex :
    c5d.1 = .ok (some 1) ∧
    (GetResult.ok (some 1) : GetResult Nat Unit) ≠ .ok (some 2) :=
  ⟨rfl, by decide⟩

/-- C5 amended: acquire returns 1, a second acquire returns 1 without
invoking the loader again; with no unloader supplied, `evictComponent` is a
no-op (manager unchanged, component stays `LOADED`) and the next acquire
still returns the cached 1 with the loader invoked only once; with an
unloader supplied, `evictComponent` clears the instance, moves the component
to `NOT_LOADED`, and the next acquire reconstructs and returns 2. -/
theorem c5_counter_scenario_amended :
    (c5a.1 = .ok (some 1) ∧ c5b.1 = .ok (some 1) ∧
      ((alookup c5b.2.components "model").map fun c => c.loaderCalls) =
        some 1 ∧
      c5c = c5b.2 ∧ c5d.1 = .ok (some 1) ∧
      ((alookup c5d.2.components "model").map fun c => c.loaderCalls) =
        some 1) ∧
    (c5ua.1 = .ok (some 1) ∧ c5ub.1 = .ok (some 1) ∧
      ((alookup c5ub.2.components "model").map fun c => c.loaderCalls) =
        some 1 ∧
      ((alookup c5uc.components "model").map fun c => (c.state, c.inst)) =
        some (.not_loaded, none) ∧
      c5ud.1 = .ok (some 2)) :=
  ⟨⟨rfl, rfl, rfl, rfl, rfl, rfl⟩, rfl, rfl, rfl, rfl, rfl⟩

/-- C6 counterexample: after `unload_all`, a component that was `LOADED` but
registered without an unloader is still `LOADED` with its instance present,
contradicting "every component that was Loaded is NotLoaded with its
instance cleared". -/
theorem c6_evict_all_cex :
    ((alookup (run c6CexOps).components "a").map fun c => (c.state, c.inst)) =
      some (.loaded, some 1) ∧
    LoadState.loaded ≠ LoadState.not_loaded := ⟨rfl, by decide⟩

/-- C6 amended: after `unload_all` (on a manager whose registry has
duplicate-free keys) the timer dictionary is empty and every entry has gone
through `evictEntry`: a `LOADED` component WITH an unloader that returns
normally ends `NOT_LOADED` with its instance cleared; a `LOADED` component
whose unloader raises remains `LOADED` with its instance intact (only its
unloader-invocation ghost counter advances); a component without an unloader
is left untouched (in particular it stays `LOADED` if it was).  Calling
`unload_all` again leaves the timer dictionary empty and changes no state or
instance of any component (idempotent up to re-invoking the unloaders that
raised). -/
theorem c6_evict_all_amended {α ε : Type} (m : Mgr α ε)
    (hnd : (m.components.map Prod.fst).Nodup) :
    (unload_all m).unload_timers = [] ∧
    (∀ name comp u x, alookup m.components name = some comp →
        comp.state = .loaded → comp.unloader = some u → u comp.inst = .ok x →
        alookup (unload_all m).components name =
          some { comp with
                 inst := none
                 state := .not_loaded
                 unloaderCalls := comp.unloaderCalls + 1 }) ∧
    (∀ name comp u e, alookup m.components name = some comp →
        comp.state = .loaded → comp.unloader = some u →
        u comp.inst = .error e →
        alookup (unload_all m).components name =
          some { comp with unloaderCalls := comp.unloaderCalls + 1 }) ∧
    (∀ name comp, alookup m.components name = some comp →
        comp.unloader = none →
        alookup (unload_all m).components name = some comp) ∧
    (unload_all (unload_all m)).unload_timers = [] ∧
    (∀ name, ((alookup (unload_all (unload_all m)).components name).map
        fun c => (c.state, c.inst)) =
      ((alookup (unload_all m).components name).map
        fun c => (c.state, c.inst))) := by
  have hnd2 : ((unload_all m).components.map Prod.fst).Nodup := by
    rw [unload_all_keys]; exact hnd
  refine ⟨rfl, ?_, ?_, ?_, rfl, ?_⟩
  · intro name comp u x hl hs hu hx
    rw [unload_all_lookup m name hnd, hl]
    simp [evictEntry, hu, hs, hx]
  · intro name comp u e hl hs hu he
    rw [unload_all_lookup m name hnd, hl]
    simp [evictEntry, hu, hs, he]
  · intro name comp hl hu
    rw [unload_all_lookup m name hnd, hl]
    simp [evictEntry, hu]
  · intro name
    rw [unload_all_lookup (unload_all m) name hnd2,
      unload_all_lookup m name hnd]
    rcases alookup m.components name with _ | c
    · rfl
    · simp [(evictEntry_idem c).1, (evictEntry_idem c).2]

/-- C6 witness: the amended statement at a concrete one-component manager
with a well-behaved unloader. -/
theorem c6_witness : (unload_all c6m).unload_timers = [] :=
  (c6_evict_all_amended c6m (by decide)).1

/-- C7: a never-loaded component whose loader raises on this call and
succeeds on the next: the first acquire re-raises the loader exception and
leaves the descriptor in state `ERROR` (instance unchanged); the next
acquire invokes the loader again and, on success, returns the fresh instance
with state `LOADED` — `ERROR` is not sticky.  The final descriptor records
two loader invocations. -/
theorem c7_error_not_sticky {α ε : Type} (m : Mgr α ε) (name : String)
    (comp : Comp α ε) (e : ε) (v : α) (now1 now2 : Int)
    (hl : alookup m.components name = some comp)
    (hs : comp.state = .not_loaded)
    (hfail : comp.loader comp.loaderCalls = .error e)
    (hok : comp.loader (comp.loaderCalls + 1) = .ok v) :
    (get_component m name false now1).1 = .raised e ∧
    ((alookup (get_component m name false now1).2.components name).map
      fun c => (c.state, c.inst)) = some (.error, comp.inst) ∧
    (get_component (get_component m name false now1).2 name false now2).1 =
      .ok (some v) ∧
    ((alookup (get_component (get_component m name false now1).2 name false
        now2).2.components name).map
      fun c => (c.state, c.inst, c.loaderCalls)) =
      some (.loaded, some v, comp.loaderCalls + 2) := by
  have h1 : get_component m name false now1 =
      (.raised e, { m with
        unload_timers := cancelTimer m.unload_timers name
        components := astore m.components name {
          comp with
          state := .error
          loaderCalls := comp.loaderCalls + 1 } }) := by
    unfold get_component
    simp [hl, hs, hfail]
  have h2 : get_component (get_component m name false now1).2 name false
      now2 =
      (.ok (some v), { (get_component m name false now1).2 with
        unload_timers := cancelTimer
          (get_component m name false now1).2.unload_timers name
        components := astore (get_component m name false now1).2.components
          name {
          comp with
          state := .loaded
          inst := some v
          last_used := now2
          access_count := comp.access_count + 1
          loaderCalls := comp.loaderCalls + 1 + 1 } }) := by
    rw [h1]
    unfold get_component
    simp [alookup_astore, hok]
  refine ⟨by rw [h1], ?_, by rw [h2], ?_⟩
  · rw [h1]
    simp [alookup_astore]
  · rw [h2, h1]
    simp [alookup_astore]

/-- C7 witness: the first acquire of the fail-then-succeed scenario raises
the loader exception. -/
theorem c7_witness : (get_component c7m "model" false 0).1 = .raised () :=
  (c7_error_not_sticky c7m "model" c7Comp () 7 0 1 rfl rfl rfl rfl).1

/-- C8: the fired eviction check `_unload_if_idle` changes nothing unless
the elapsed idle time (`now - last_used`) is at least the scheduled timeout
AND the component is still `LOADED` at fire time; when the guard holds it
performs exactly `unload_component`; and a timer scheduled at time `sched`
firing at `sched + timeout` never evicts a component acquired after `sched`
(its `last_used` is fresher, so the guard fails). -/
theorem c8_idle_guard {α ε : Type} (m : Mgr α ε) (name : String)
    (comp : Comp α ε) (timeout now sched : Int)
    (hl : alookup m.components name = some comp) :
    (¬ (timeout ≤ now - comp.last_used ∧ comp.state = .loaded) →
      «_unload_if_idle» m name timeout now = m) ∧
    ((timeout ≤ now - comp.last_used ∧ comp.state = .loaded) →
      «_unload_if_idle» m name timeout now = unload_component m name) ∧
    (now = sched + timeout → sched < comp.last_used →
      «_unload_if_idle» m name timeout now = m) := by
  refine ⟨?_, ?_, ?_⟩
  · intro hg
    unfold «_unload_if_idle»
    simp only [hl]
    rw [if_neg hg]
  · intro hg
    unfold «_unload_if_idle»
    simp only [hl]
    rw [if_pos hg]
  · intro hfire hlate
    have hg : ¬ (timeout ≤ now - comp.last_used ∧ comp.state = .loaded) := by
      intro hcontra
      have := hcontra.1
      omega
    unfold «_unload_if_idle»
    simp only [hl]
    rw [if_neg hg]

/-- C8 witness: a timer scheduled at time 0 with timeout 10 fires at time 10
against a component last acquired at time 5; nothing changes. -/
theorem c8_witness : «_unload_if_idle» c8m "model" 10 10 = c8m :=
  (c8_idle_guard c8m "model" c8Comp 10 10 0 rfl).2.2 rfl (by decide)

/-- C9: `schedule_unload` cannot fail and consults the component registry
nowhere: for any name (registered or not) it leaves the registry untouched
and installs a fresh, uncancelled timer under that name; and when the
deferred check later fires for an unregistered name it returns leaving the
manager completely unchanged. -/
theorem c9_schedule_never_fails {α ε : Type} (m : Mgr α ε) (name : String)
    (timeout : Option Int) (now fireTimeout fireNow : Int) :
    ((schedule_unload m name timeout now).components = m.components ∧
      alookup (schedule_unload m name timeout now).unload_timers name =
        some { schedTime := now
               timeout := timeout.getD m.default_timeout
               canceled := false }) ∧
    (alookup m.components name = none →
      «_unload_if_idle» m name fireTimeout fireNow = m) := by
  refine ⟨⟨rfl, ?_⟩, ?_⟩
  · unfold schedule_unload
    simp [alookup_astore]
  · intro hn
    unfold «_unload_if_idle»
    simp [hn]

/-- C9 witness: firing the deferred check for a never-registered name on a
fresh manager changes nothing. -/
theorem c9_witness :
    «_unload_if_idle» (Mgr.init Nat Unit) "ghost" 60 100 = Mgr.init Nat Unit :=
  (c9_schedule_never_fails (Mgr.init Nat Unit) "ghost" none 5 60 100).2 rfl

/-- C10: `get_component` with `force_reload = true` on a `LOADED` component
invokes the loader again and, on success, returns the fresh instance and
replaces the stored one; the resulting descriptor keeps the unloader of the
old record and — decisively — its unchanged `unloaderCalls` ghost counter: the
unloader is never invoked on the replaced instance (`get_component` contains
no unloader call). -/
theorem c10_force_reload {α ε : Type} (m : Mgr α ε) (name : String)
    (comp : Comp α ε) (v : α) (now : Int)
    (hl : alookup m.components name = some comp)
    (hs : comp.state = .loaded)
    (hok : comp.loader comp.loaderCalls = .ok v) :
    (get_component m name true now).1 = .ok (some v) ∧
    alookup (get_component m name true now).2.components name =
      some { comp with
             state := .loaded
             inst := some v
             last_used := now
             access_count := comp.access_count + 1
             loaderCalls := comp.loaderCalls + 1 } := by
  unfold get_component
  refine ⟨?_, ?_⟩ <;> simp [hl, hs, hok, alookup_astore]

/-- C10 witness: force-reloading the loaded counter component returns the
second counter value 2. -/
theorem c10_witness : (get_component c10m "model" true 7).1 = .ok (some 2) :=
  (c10_force_reload c10m "model" c10Comp 2 7 rfl rfl rfl).1

end Draco
